import Mathlib

/-!
Verification development for the ts-compiler-bin repository
(src/src/index.ts, second revision, the one with asset support).

The program is a thin orchestration layer: resolve an entry file, invoke an
external bundler, optionally stage asset files into a temp directory and
prepend a lookup helper to the bundle, then invoke an external packager and
clean up.  We embed it shallowly: the file system is a tree of entries, the
staged assets directory is a last-writer-wins list of relative path to
content bindings, the two external collaborators are oracles carried by a
world record, and `compile` returns its outcome together with an observation
trace (collaborator invocation counts, targets passed, staged contents,
final bundle text, warnings, cleanup flag).
-/

namespace TsCompilerBin

/-- Disk entry: a file with textual content, or a directory with named
children, mirroring what fs.statSync and fs.readdirSync expose to the
copy helpers in src/src/index.ts. -/
inductive FsEntry where
  | file (content : String)
  | dir (entries : List (String × FsEntry))

/-- Relative path inside the staging assets directory, as a list of
path components. -/
abbrev RelPath := List String

/-- Contents of the staged assets directory: bindings from relative path to
file content.  `Store.write` models fs.copyFileSync / fs.writeFileSync into
that directory (an overwrite, hence last-writer-wins). -/
abbrev Store := List (RelPath × String)

/-- Overwriting write of one file into the staged directory. -/
def Store.write (st : Store) (p : RelPath) (c : String) : Store :=
  (p, c) :: st.filter fun e => decide (¬ e.1 = p)

/-- Read one file of the staged directory (none when absent). -/
def Store.read (st : Store) (p : RelPath) : Option String :=
  (st.find? fun e => decide (e.1 = p)).map Prod.snd

/-- Split a character list at slashes (structural helper for basename). -/
def splitSlash : List Char → List (List Char)
  | [] => [[]]
  | c :: rest =>
    match splitSlash rest with
    | [] => [[]]
    | g :: gs => if c = '/' then [] :: g :: gs else (c :: g) :: gs

/-- Model of path.basename on resolved (slash-separated) paths: the last
non-empty slash-separated component. -/
def basename (p : String) : String :=
  ((((splitSlash p.data).map fun l => String.mk l).filter
      fun s => decide (¬ s = "")).getLastD p)

/-- Embedding of copyDirectoryRecursive (src/src/index.ts lines 466-488):
copies the given directory entries below `target`; files are copied,
subdirectories are recursed into under their own name. -/
def copyDirectoryRecursive : List (String × FsEntry) → RelPath → Store → Store
  | [], _, st => st
  | (n, FsEntry.file c) :: rest, target, st =>
      copyDirectoryRecursive rest target (Store.write st (target ++ [n]) c)
  | (n, FsEntry.dir es) :: rest, target, st =>
      copyDirectoryRecursive rest target (copyDirectoryRecursive es (target ++ [n]) st)

/-- Embedding of copyDirectoryContents (src/src/index.ts lines 491-513):
copies the contents of a directory directly into `target` (files at top
level; subdirectories via copyDirectoryRecursive under their own name). -/
def copyDirectoryContents : List (String × FsEntry) → RelPath → Store → Store
  | [], _, st => st
  | (n, FsEntry.file c) :: rest, target, st =>
      copyDirectoryContents rest target (Store.write st (target ++ [n]) c)
  | (n, FsEntry.dir es) :: rest, target, st =>
      copyDirectoryContents rest target (copyDirectoryRecursive es (target ++ [n]) st)

/-- The world a compile run observes: current directory, OS flags
(process.platform), path resolution, the disk, and the two external
collaborators (esbuild producing either an error or bundle text, and the
pkg subprocess either failing or succeeding). -/
structure SysWorld where
  cwd : String
  isWin32 : Bool
  isDarwin : Bool
  resolve : String → String
  disk : String → Option FsEntry
  bundleOutput : Except String String
  pkgExec : Except String Unit

/-- Asset staging loop of compile (src/src/index.ts lines 329-352): resolve
each asset path; a missing path yields a warning and is skipped; a directory
has its contents merged into the assets directory; a file is copied by its
basename.  Returns the staged store, the hasAssets flag, and the warnings. -/
def stageLoop (w : SysWorld) : List String → Store → Bool → List String → Store × Bool × List String
  | [], st, has, ws => (st, has, ws)
  | a :: rest, st, has, ws =>
    match w.disk (w.resolve a) with
    | none =>
        stageLoop w rest st has (ws ++ ["⚠️ Warning: Asset not found: " ++ w.resolve a])
    | some (FsEntry.dir es) =>
        stageLoop w rest (copyDirectoryContents es [] st) true ws
    | some (FsEntry.file c) =>
        stageLoop w rest (Store.write st [basename (w.resolve a)] c) true ws

/-- The assets option of CompileOptions: either a single string or a list
of paths (assets?: string | string[]). -/
inductive AssetsOpt where
  | str (s : String)
  | list (l : List String)

/-- Normalization performed at src/src/index.ts line 316:
typeof assets is string, so wrap it in a singleton array. -/
def normalizeAssets : AssetsOpt → List String
  | AssetsOpt.str s => [s]
  | AssetsOpt.list l => l

/-- The CompileOptions interface (src/src/index.ts lines 255-262); optional
fields are Option, none standing for a JavaScript undefined (the
destructuring defaults of compile then apply). -/
structure CompileOptions where
  entryPoint : String
  outFile : String
  target : Option String := none
  platform : Option String := none
  nodeVersion : Option String := none
  assets : Option AssetsOpt := none

/-- The errors compile can throw. -/
inductive CompileErr where
  | fileNotFound (p : String)
  | bundleError (e : String)
  | pkgError (e : String)

/-- Message text of each thrown error, as thrown by the source. -/
def CompileErr.message : CompileErr → String
  | CompileErr.fileNotFound p => "File not found: " ++ p
  | CompileErr.bundleError e => e
  | CompileErr.pkgError e => e

/-- Default platform value of compile (src/src/index.ts line 269):
process.platform mapped into win, macos or linux. -/
def defaultPlatform (w : SysWorld) : String :=
  if w.isWin32 then "win" else if w.isDarwin then "macos" else "linux"

/-- Observation trace of one compile run.  stagedAssets is the content of
the temp assets directory at the moment the packager is invoked; exeAssets
is the assets directory copied beside the output binary on success. -/
structure CompileTrace where
  bundlerCalls : Nat := 0
  packagerCalls : Nat := 0
  packagerTargets : List String := []
  packagerAssetsOption : String := ""
  stagedAssets : Store := []
  bundleContent : Option String := none
  warnings : List String := []
  tempDirRemoved : Bool := false
  exeAssets : Option Store := none
  readmeWritten : Bool := false

/-- The pkg target identifiers built at src/src/index.ts lines 414-422. -/
def pkgTargets (platform nodeVersion : String) : List String :=
  if platform = "all" then
    ["node" ++ nodeVersion ++ "-win-x64",
     "node" ++ nodeVersion ++ "-macos-x64",
     "node" ++ nodeVersion ++ "-linux-x64"]
  else
    ["node" ++ nodeVersion ++ "-" ++ platform ++ "-x64"]

/-- The asset helper text prepended to the bundle (the assetHelperCode
template literal, src/src/index.ts lines 357-399).  Braces are written as
hex escapes and apostrophes as hex 27 escapes; the string value is the
source text verbatim. -/
def assetHelperCode : String :=
  "\n// Asset helper functions\n"
  ++ "if (!global.__assetAccessInitialized) \x7b\n"
  ++ "  global.__assetAccessInitialized = true;\n"
  ++ "  const fs = require(\x27fs\x27);\n"
  ++ "  const path = require(\x27path\x27);\n"
  ++ "  \n"
  ++ "  global.__readAsset = function(filename) \x7b\n"
  ++ "    try \x7b\n"
  ++ "      // Для pkg: шлях відносно виконуваного файлу\n"
  ++ "      const pkgPath = path.join(path.dirname(process.execPath), \x27assets\x27, filename);\n"
  ++ "      if (fs.existsSync(pkgPath)) \x7b\n"
  ++ "        return fs.readFileSync(pkgPath, \x27utf-8\x27);\n"
  ++ "      \x7d\n"
  ++ "      \n"
  ++ "      // Для pkg: альтернативний шлях\n"
  ++ "      const pkgPath2 = path.join(process.cwd(), \x27assets\x27, filename);\n"
  ++ "      if (fs.existsSync(pkgPath2)) \x7b\n"
  ++ "        return fs.readFileSync(pkgPath2, \x27utf-8\x27);\n"
  ++ "      \x7d\n"
  ++ "      \n"
  ++ "      // Для pkg: шлях відносно snapshot директорії\n"
  ++ "      if (process.pkg) \x7b\n"
  ++ "        const snapshotPath = path.join(\x27/snapshot/assets\x27, filename);\n"
  ++ "        if (fs.existsSync(snapshotPath)) \x7b\n"
  ++ "          return fs.readFileSync(snapshotPath, \x27utf-8\x27);\n"
  ++ "        \x7d\n"
  ++ "      \x7d\n"
  ++ "      \n"
  ++ "      // Для розробки: шлях відносно поточної директорії\n"
  ++ "      const devPath = path.join(__dirname, \x27assets\x27, filename);\n"
  ++ "      if (fs.existsSync(devPath)) \x7b\n"
  ++ "        return fs.readFileSync(devPath, \x27utf-8\x27);\n"
  ++ "      \x7d\n"
  ++ "      \n"
  ++ "      throw new Error(\x27Asset file not found: \x27 + filename);\n"
  ++ "    \x7d catch (error) \x7b\n"
  ++ "      console.error(\x27Error reading asset file \x27 + filename + \x27:\x27, error);\n"
  ++ "      throw error;\n"
  ++ "    \x7d\n"
  ++ "  \x7d;\n"
  ++ "\x7d\n"

/-- Content of the README.md written into the staged assets directory
(src/src/index.ts line 434). -/
def readmeContent : String :=
  "This directory contains assets for the application."

/-- Shallow embedding of compile (src/src/index.ts lines 264-463).
Straight-line translation: destructure options with their defaults, resolve
the entry point and fail fast when it is missing, invoke the bundler, stage
assets, inject the helper when at least one asset was copied, build the pkg
targets, write the README marker, invoke the packager, copy assets beside
the binary on success, and remove the temp directory in the finally step of
the packaging stage (so it is not removed on the earlier failure paths). -/
def compile (w : SysWorld) (o : CompileOptions) : Except CompileErr Unit × CompileTrace :=
  let platform := o.platform.getD (defaultPlatform w)
  let nodeVersion := o.nodeVersion.getD "16"
  let assets := o.assets.getD (AssetsOpt.list [])
  let entryPointPath := w.resolve o.entryPoint
  if (w.disk entryPointPath).isNone then
    (Except.error (CompileErr.fileNotFound entryPointPath), {})
  else
    let tempDir := w.cwd ++ "/.ts-compiler-bin-temp"
    match w.bundleOutput with
    | Except.error e => (Except.error (CompileErr.bundleError e), { bundlerCalls := 1 })
    | Except.ok bundle0 =>
      let assetsArray := normalizeAssets assets
      let sres :=
        if assetsArray.length > 0 then stageLoop w assetsArray [] false []
        else (([] : Store), false, ([] : List String))
      let staged := sres.1
      let hasAssets := sres.2.1
      let warns := sres.2.2
      let bundle1 := if hasAssets then assetHelperCode ++ bundle0 else bundle0
      let targets := pkgTargets platform nodeVersion
      let assetsOption :=
        if hasAssets then "--assets \"" ++ tempDir ++ "/assets/**/*\"" else ""
      let staged1 :=
        if hasAssets then Store.write staged ["README.md"] readmeContent else staged
      let tr : CompileTrace :=
        { bundlerCalls := 1, packagerCalls := 1, packagerTargets := targets,
          packagerAssetsOption := assetsOption, stagedAssets := staged1,
          bundleContent := some bundle1, warnings := warns,
          tempDirRemoved := true, readmeWritten := hasAssets }
      match w.pkgExec with
      | Except.error e => (Except.error (CompileErr.pkgError e), tr)
      | Except.ok _ =>
          (Except.ok (), { tr with exeAssets := if hasAssets then some staged1 else none })

/-- World observed by the injected asset lookup helper: whether process.pkg
is set, and the content (none when absent) of each candidate assets
directory, looked up by file name: beside the executable
(path.dirname(process.execPath)/assets), under the working directory
(process.cwd()/assets), the fixed snapshot path (/snapshot/assets), and
beside the bundle source (__dirname/assets). -/
structure AssetWorld where
  pkgMode : Bool
  execDirAssets : String → Option String
  cwdAssets : String → Option String
  snapshotAssets : String → Option String
  dirnameAssets : String → Option String

/-- Semantics of the injected helper global.__readAsset, read off the
assetHelperCode text (src/src/index.ts lines 364-397): try the executable
directory, then the working directory, then — only when process.pkg is
set — the snapshot path, then the bundle directory; return the first
existing file's content, else throw naming the file.  The catch clause of
the source logs and rethrows, so it leaves the result unchanged. -/
def readAsset (w : AssetWorld) (filename : String) : Except String String :=
  match w.execDirAssets filename with
  | some c => Except.ok c
  | none =>
    match w.cwdAssets filename with
    | some c => Except.ok c
    | none =>
      match (if w.pkgMode then w.snapshotAssets filename else none) with
      | some c => Except.ok c
      | none =>
        match w.dirnameAssets filename with
        | some c => Except.ok c
        | none => Except.error ("Asset file not found: " ++ filename)

/-- Modelled from the spec: the lookup as the specification describes it —
all four candidate locations tried unconditionally in order (executable
directory, working directory, snapshot path, bundle directory), first
existing match wins, error naming the file otherwise.  Kept for comparison
with readAsset, whose snapshot candidate is guarded by process.pkg. -/
def readAssetSpec (w : AssetWorld) (filename : String) : Except String String :=
  match w.execDirAssets filename with
  | some c => Except.ok c
  | none =>
    match w.cwdAssets filename with
    | some c => Except.ok c
    | none =>
      match w.snapshotAssets filename with
      | some c => Except.ok c
      | none =>
        match w.dirnameAssets filename with
        | some c => Except.ok c
        | none => Except.error ("Asset file not found: " ++ filename)

/-- First present value of a candidate list. -/
def firstSome : List (Option String) → Option String
  | [] => none
  | some c :: _ => some c
  | none :: rest => firstSome rest

/-- The candidate locations the helper actually consults, in order; the
snapshot path is consulted only when process.pkg is set. -/
def consultedAssetDirs (w : AssetWorld) (filename : String) : List (Option String) :=
  [w.execDirAssets filename, w.cwdAssets filename]
    ++ (if w.pkgMode then [w.snapshotAssets filename] else [])
    ++ [w.dirnameAssets filename]

/-- Whether a token starts with a dash (the arg.startsWith test of the
argument loop, written structurally on the character list). -/
def startsWithDash (s : String) : Bool :=
  match s.data with
  | [] => false
  | c :: _ => c = '-'

/-- Whether a path is already absolute (slash-initial), used by the path
resolution functions of the concrete witness worlds. -/
def startsWithSlash (s : String) : Bool :=
  match s.data with
  | [] => false
  | c :: _ => c = '/'

/-- State built by the CLI argument loop of main (src/src/index.ts lines
541-563).  Fields carrying a flag value are Option, none standing for a
JavaScript undefined (the value position args at the index past the end of
the list). -/
structure ParsedArgs where
  entryPoint : String
  outFile : Option String
  target : Option String
  platform : Option String
  assets : List (Option String)

/-- Initial parser state: entryPoint empty, outFile output, target 16,
platform the current OS default, assets empty. -/
def parseInit (w : SysWorld) : ParsedArgs :=
  { entryPoint := "", outFile := some "output", target := some "16",
    platform := some (defaultPlatform w), assets := [] }

/-- The argument loop of main (src/src/index.ts lines 549-563): each flag
consumes the following token as its value (possibly past the end of the
list, giving undefined); a bare token not starting with a dash becomes the
entry point (last one wins); an unrecognized dash token is skipped. -/
def parseLoop : List String → ParsedArgs → ParsedArgs
  | [], st => st
  | a :: rest, st =>
    if a = "--out" ∨ a = "-o" then
      match rest with
      | [] => { st with outFile := none }
      | v :: rest2 => parseLoop rest2 { st with outFile := some v }
    else if a = "--target" ∨ a = "-t" then
      match rest with
      | [] => { st with target := none }
      | v :: rest2 => parseLoop rest2 { st with target := some v }
    else if a = "--platform" ∨ a = "-p" then
      match rest with
      | [] => { st with platform := none }
      | v :: rest2 => parseLoop rest2 { st with platform := some v }
    else if a = "--assets" ∨ a = "-a" then
      match rest with
      | [] => { st with assets := st.assets ++ [none] }
      | v :: rest2 => parseLoop rest2 { st with assets := st.assets ++ [some v] }
    else if ¬ startsWithDash a then
      parseLoop rest { st with entryPoint := a }
    else
      parseLoop rest st

/-- Outcome of one CLI invocation of main. -/
inductive MainOutcome where
  | helpShown
  | usageError
  | assetArgCrash
  | compiled
  | failed (e : CompileErr)

/-- Process exit code of each outcome: zero on help or success, one on the
usage error (process.exit 1), on a crash inside compile, and on a caught
compilation failure (process.exit 1 in the catch of main). -/
def MainOutcome.exitCode : MainOutcome → Nat
  | MainOutcome.helpShown => 0
  | MainOutcome.compiled => 0
  | _ => 1

/-- Outcome of main once compile has run to a result: success resolves main
(exit 0), an error is caught and exits 1. -/
def mainFinish (res : Except CompileErr Unit × CompileTrace) :
    MainOutcome × Option (Except CompileErr Unit × CompileTrace) :=
  match res.1 with
  | Except.ok _ => (MainOutcome.compiled, some res)
  | Except.error e => (MainOutcome.failed e, some res)

/-- Embedding of main (src/src/index.ts lines 516-594): print usage and
return when no arguments or a help flag are given; parse the arguments;
exit 1 when no entry point was found; otherwise resolve the entry point and
call compile, exiting 0 on success and 1 on failure.  The second component
is the compile result when compile ran to a result; a trailing value-taking
assets flag leaves undefined in the parsed assets, which makes
path.resolve throw inside the staging loop of compile — modelled as the
assetArgCrash outcome (exit 1, no tracked compile result). -/
def mainRun (w : SysWorld) (args : List String) :
    MainOutcome × Option (Except CompileErr Unit × CompileTrace) :=
  if args.isEmpty || args.contains "--help" || args.contains "-h" then
    (MainOutcome.helpShown, none)
  else
    let p := parseLoop args (parseInit w)
    if p.entryPoint = "" then (MainOutcome.usageError, none)
    else if p.assets.contains none then (MainOutcome.assetArgCrash, none)
    else
      mainFinish (compile w
        { entryPoint := w.resolve p.entryPoint
        , outFile := p.outFile.getD "undefined"
        , target := some ("node" ++ p.target.getD "undefined")
        , platform := p.platform
        , nodeVersion := p.target
        , assets := some (AssetsOpt.list p.assets.reduceOption) })

/-- Concrete world for witnesses: an entry file, one asset file, one asset
directory with one image; both collaborators succeed. -/
def wOk : SysWorld :=
  { cwd := "/w", isWin32 := false, isDarwin := false,
    resolve := fun s => if startsWithSlash s then s else "/w/" ++ s,
    disk := fun p =>
      if p = "/w/app.ts" then some (FsEntry.file "code")
      else if p = "/w/config.json" then some (FsEntry.file "cfg")
      else if p = "/w/images" then some (FsEntry.dir [("a.png", FsEntry.file "png")])
      else none,
    bundleOutput := Except.ok "BUNDLE;",
    pkgExec := Except.ok () }

/-- Concrete world whose disk is empty (every resolved path is missing). -/
def wMiss : SysWorld :=
  { cwd := "/w", isWin32 := false, isDarwin := false,
    resolve := fun s => if startsWithSlash s then s else "/w/" ++ s,
    disk := fun _ => none,
    bundleOutput := Except.ok "BUNDLE;",
    pkgExec := Except.ok () }

/-- Concrete world whose pkg subprocess fails. -/
def wPkgFail : SysWorld :=
  { cwd := "/w", isWin32 := false, isDarwin := false,
    resolve := fun s => if startsWithSlash s then s else "/w/" ++ s,
    disk := fun p =>
      if p = "/w/app.ts" then some (FsEntry.file "code")
      else if p = "/w/config.json" then some (FsEntry.file "cfg")
      else none,
    bundleOutput := Except.ok "BUNDLE;",
    pkgExec := Except.error "pkg exited 1" }

/-- Base concrete options used by the witnesses. -/
def oBase : CompileOptions := { entryPoint := "app.ts", outFile := "out" }

/-- Concrete asset world in which the snapshot directory holds the file but
process.pkg is not set, while the development directory also holds it with
different content. -/
def awCounter : AssetWorld :=
  { pkgMode := false,
    execDirAssets := fun _ => none,
    cwdAssets := fun _ => none,
    snapshotAssets := fun f => if f = "config.json" then some "snapshot-content" else none,
    dirnameAssets := fun f => if f = "config.json" then some "dev-content" else none }

/-- Concrete options with platform all. -/
def oAll : CompileOptions :=
  { entryPoint := "app.ts", outFile := "out",
    platform := some "all", nodeVersion := some "7" }

/-- Concrete options with platform alpine. -/
def oAlpine : CompileOptions :=
  { entryPoint := "app.ts", outFile := "out",
    platform := some "alpine", nodeVersion := some "16" }

/-- Concrete options with one existing asset. -/
def oAssets : CompileOptions :=
  { entryPoint := "app.ts", outFile := "out",
    assets := some (AssetsOpt.list ["config.json"]) }

/-- Concrete options whose only asset is missing on disk. -/
def oMissingAssets : CompileOptions :=
  { entryPoint := "app.ts", outFile := "out",
    assets := some (AssetsOpt.list ["nope.txt"]) }

/-- Concrete options with one missing and one existing asset. -/
def oMixedAssets : CompileOptions :=
  { entryPoint := "app.ts", outFile := "out",
    assets := some (AssetsOpt.list ["nope.txt", "config.json"]) }

/-- The options main builds for the argument list consisting only of the
token app.ts in the world wOk. -/
def cliOptsOk : CompileOptions :=
  { entryPoint := wOk.resolve "app.ts", outFile := "output",
    target := some ("node" ++ "16"), platform := some (defaultPlatform wOk),
    nodeVersion := some "16", assets := some (AssetsOpt.list []) }

/-! Helper lemmas about the staged store and the staging loop. -/

theorem Store.read_write_self (st : Store) (p : RelPath) (c : String) :
    Store.read (Store.write st p c) p = some c := by
  simp [Store.read, Store.write]

theorem store_find_filter_ne (st : Store) (p q : RelPath) (h : ¬ q = p) :
    ((st.filter fun e => decide (¬ e.1 = p)).find? fun e => decide (e.1 = q))
      = st.find? fun e => decide (e.1 = q) := by
  induction st with
  | nil => rfl
  | cons e rest ih =>
    by_cases hep : e.1 = p
    · have hq : ¬ e.1 = q := by
        rw [hep]; exact fun hpq => h hpq.symm
      rw [List.filter_cons_of_neg (by simpa using hep),
        List.find?_cons_of_neg _ (by simpa using hq), ih]
    · rw [List.filter_cons_of_pos (by simpa using hep)]
      by_cases heq : e.1 = q
      · rw [List.find?_cons_of_pos _ (by simpa using heq),
          List.find?_cons_of_pos _ (by simpa using heq)]
      · rw [List.find?_cons_of_neg _ (by simpa using heq),
          List.find?_cons_of_neg _ (by simpa using heq), ih]

theorem Store.read_write_ne (st : Store) (p : RelPath) (c : String) (q : RelPath)
    (h : ¬ q = p) :
    Store.read (Store.write st p c) q = Store.read st q := by
  have h2 : ¬ p = q := fun hpq => h hpq.symm
  unfold Store.read Store.write
  rw [List.find?_cons_of_neg _ (by simpa using h2), store_find_filter_ne st p q h]

theorem Store.mem_write (st : Store) (p : RelPath) (c : String) (q : RelPath × String)
    (h : q ∈ Store.write st p c) : q = (p, c) ∨ q ∈ st := by
  simp only [Store.write, List.mem_cons] at h
  rcases h with h | h
  · exact Or.inl h
  · exact Or.inr (List.mem_of_mem_filter h)

theorem copyContents_files (es : List (String × String)) (tgt : RelPath) (st : Store) :
    copyDirectoryContents (es.map fun e => (e.1, FsEntry.file e.2)) tgt st
      = es.foldl (fun acc e => Store.write acc (tgt ++ [e.1]) e.2) st := by
  induction es generalizing st with
  | nil => simp [copyDirectoryContents]
  | cons e rest ih => simp [copyDirectoryContents, ih]

theorem foldl_writes_read_notin (es : List (String × String)) (tgt : RelPath)
    (st : Store) (p : RelPath) (h : ∀ e ∈ es, ¬ p = tgt ++ [e.1]) :
    Store.read (es.foldl (fun acc e => Store.write acc (tgt ++ [e.1]) e.2) st) p
      = Store.read st p := by
  induction es generalizing st with
  | nil => rfl
  | cons e rest ih =>
    simp only [List.foldl_cons]
    rw [ih _ fun e' he' => h e' (List.mem_cons_of_mem e he')]
    exact Store.read_write_ne st (tgt ++ [e.1]) e.2 p (h e (List.mem_cons_self e rest))

theorem foldl_writes_read_mem (es : List (String × String)) (tgt : RelPath)
    (st : Store) (n c : String) (hnd : (es.map Prod.fst).Nodup) (hmem : (n, c) ∈ es) :
    Store.read (es.foldl (fun acc e => Store.write acc (tgt ++ [e.1]) e.2) st) (tgt ++ [n])
      = some c := by
  induction es generalizing st with
  | nil => cases hmem
  | cons e rest ih =>
    simp only [List.map_cons, List.nodup_cons] at hnd
    rcases List.mem_cons.mp hmem with h | h
    · subst h
      simp only [List.foldl_cons]
      rw [foldl_writes_read_notin]
      · exact Store.read_write_self st (tgt ++ [n]) c
      · intro e' he' hcontra
        have h1 : n = e'.1 := by
          simpa using List.append_cancel_left hcontra
        refine hnd.1 ?_
        show n ∈ List.map Prod.fst rest
        rw [h1]
        exact List.mem_map_of_mem Prod.fst he'
    · simp only [List.foldl_cons]
      exact ih _ hnd.2 h


theorem foldl_writes_mem (es : List (String × String)) (tgt : RelPath) (st : Store)
    (q : RelPath × String)
    (h : q ∈ es.foldl (fun acc e => Store.write acc (tgt ++ [e.1]) e.2) st) :
    (∃ e ∈ es, q.1 = tgt ++ [e.1]) ∨ q ∈ st := by
  induction es generalizing st with
  | nil => exact Or.inr h
  | cons e rest ih =>
    simp only [List.foldl_cons] at h
    rcases ih _ h with h1 | h1
    · rcases h1 with ⟨e', he', hq⟩
      exact Or.inl ⟨e', List.mem_cons_of_mem e he', hq⟩
    · rcases Store.mem_write _ _ _ _ h1 with h2 | h2
      · exact Or.inl ⟨e, List.mem_cons_self e rest, by rw [h2]⟩
      · exact Or.inr h2

theorem stage_guard (w : SysWorld) (as : List String) :
    (if as.length > 0 then stageLoop w as [] false []
     else (([] : Store), false, ([] : List String))) = stageLoop w as [] false [] := by
  cases as <;> simp [stageLoop]

theorem stageLoop_has (w : SysWorld) (as : List String) (st : Store) (has : Bool)
    (ws : List String) :
    (stageLoop w as st has ws).2.1
      = (has || as.any fun a => (w.disk (w.resolve a)).isSome) := by
  induction as generalizing st has ws with
  | nil => simp [stageLoop]
  | cons a rest ih =>
    cases h : w.disk (w.resolve a) with
    | none => simp [stageLoop, h, ih]
    | some fe => cases fe <;> simp [stageLoop, h, ih]

theorem stageLoop_warns (w : SysWorld) (as : List String) (st : Store) (has : Bool)
    (ws : List String) :
    (stageLoop w as st has ws).2.2
      = ws ++ ((as.filter fun a => (w.disk (w.resolve a)).isNone).map
          fun a => "⚠️ Warning: Asset not found: " ++ w.resolve a) := by
  induction as generalizing st has ws with
  | nil => simp [stageLoop]
  | cons a rest ih =>
    cases h : w.disk (w.resolve a) with
    | none => simp [stageLoop, h, ih, List.filter_cons]
    | some fe => cases fe <;> simp [stageLoop, h, ih, List.filter_cons]

/-- Proof device: the store component of the staging loop, which depends
neither on the hasAssets flag nor on the warning accumulator. -/
def stageStore (w : SysWorld) : List String → Store → Store
  | [], st => st
  | a :: rest, st =>
    match w.disk (w.resolve a) with
    | none => stageStore w rest st
    | some (FsEntry.dir es) => stageStore w rest (copyDirectoryContents es [] st)
    | some (FsEntry.file c) => stageStore w rest (Store.write st [basename (w.resolve a)] c)

theorem stageLoop_fst (w : SysWorld) (as : List String) (st : Store) (has : Bool)
    (ws : List String) :
    (stageLoop w as st has ws).1 = stageStore w as st := by
  induction as generalizing st has ws with
  | nil => simp [stageLoop, stageStore]
  | cons a rest ih =>
    cases h : w.disk (w.resolve a) with
    | none => simp [stageLoop, stageStore, h, ih]
    | some fe => cases fe <;> simp [stageLoop, stageStore, h, ih]

theorem stageStore_skip (w : SysWorld) (as : List String) (st : Store) :
    stageStore w (as.filter fun a => (w.disk (w.resolve a)).isSome) st
      = stageStore w as st := by
  induction as generalizing st with
  | nil => simp [stageStore]
  | cons a rest ih =>
    cases h : w.disk (w.resolve a) with
    | none => simp [stageStore, h, ih, List.filter_cons]
    | some fe => cases fe <;> simp [stageStore, h, ih, List.filter_cons]

/-- C1: for every entry-point path whose resolved absolute path does not
exist on disk, compile fails with a "File not found" error before the
external bundler or the external packager is invoked (zero invocations of
either collaborator). -/
theorem c1_missing_entry_fails_before_collaborators (w : SysWorld) (o : CompileOptions)
    (hmiss : w.disk (w.resolve o.entryPoint) = none) :
    (compile w o).1 = Except.error (CompileErr.fileNotFound (w.resolve o.entryPoint))
    ∧ CompileErr.message (CompileErr.fileNotFound (w.resolve o.entryPoint))
        = "File not found: " ++ w.resolve o.entryPoint
    ∧ (compile w o).2.bundlerCalls = 0
    ∧ (compile w o).2.packagerCalls = 0 := by
  refine ⟨?_, rfl, ?_, ?_⟩ <;> simp [compile, hmiss]

/-- C2: for every nodeVersion v, a run that reaches packaging hands the
packager the three identifiers node v-win-x64, node v-macos-x64,
node v-linux-x64 in that order when platform is all, and the single
identifier node v-p-x64 with p used verbatim for every other platform
value p. -/
theorem c2_packager_target_identifiers (w : SysWorld) (o : CompileOptions) (v p : String)
    (hp : o.platform = some p) (hv : o.nodeVersion = some v)
    (fe : FsEntry) (hentry : w.disk (w.resolve o.entryPoint) = some fe)
    (b : String) (hbundle : w.bundleOutput = Except.ok b) :
    (compile w o).2.packagerCalls = 1
    ∧ (compile w o).2.packagerTargets =
        (if p = "all" then
          ["node" ++ v ++ "-win-x64", "node" ++ v ++ "-macos-x64",
           "node" ++ v ++ "-linux-x64"]
        else
          ["node" ++ v ++ "-" ++ p ++ "-x64"]) := by
  cases hpk : w.pkgExec <;>
    exact ⟨by simp [compile, hentry, hbundle, hpk],
      by simp [compile, hentry, hbundle, hp, hv, hpk, pkgTargets]⟩

/-- C4: every run that reaches the packaging stage removes the staging
directory once compile settles, both when the packager succeeds and when
it fails, and on packager failure the error is rethrown to the caller. -/
theorem c4_cleanup_and_rethrow (w : SysWorld) (o : CompileOptions)
    (fe : FsEntry) (hentry : w.disk (w.resolve o.entryPoint) = some fe)
    (b : String) (hbundle : w.bundleOutput = Except.ok b) :
    (compile w o).2.packagerCalls = 1
    ∧ (compile w o).2.tempDirRemoved = true
    ∧ (∀ e, w.pkgExec = Except.error e →
        (compile w o).1 = Except.error (CompileErr.pkgError e))
    ∧ (∀ u, w.pkgExec = Except.ok u → (compile w o).1 = Except.ok ()) := by
  refine ⟨?_, ?_, ?_, ?_⟩
  · cases hpk : w.pkgExec <;> simp [compile, hentry, hbundle, hpk]
  · cases hpk : w.pkgExec <;> simp [compile, hentry, hbundle, hpk]
  · intro e he; simp [compile, hentry, hbundle, he]
  · intro u hu; simp [compile, hentry, hbundle, hu]

/-- C5: the asset helper is prepended as plain text to the bundle, leaving
the original bundle as a suffix, exactly when at least one listed asset
path exists on disk; in particular a non-empty assets list whose entries
are all missing leaves the bundle unchanged. -/
theorem c5_helper_injected_iff_asset_copied (w : SysWorld) (o : CompileOptions)
    (fe : FsEntry) (hentry : w.disk (w.resolve o.entryPoint) = some fe)
    (b : String) (hbundle : w.bundleOutput = Except.ok b) :
    (compile w o).2.bundleContent
      = some (if (normalizeAssets (o.assets.getD (AssetsOpt.list []))).any
                (fun a => (w.disk (w.resolve a)).isSome)
              then assetHelperCode ++ b else b)
    ∧ ((∀ a ∈ normalizeAssets (o.assets.getD (AssetsOpt.list [])),
          w.disk (w.resolve a) = none) →
        (compile w o).2.bundleContent = some b) := by
  have hmain : (compile w o).2.bundleContent
      = some (if (normalizeAssets (o.assets.getD (AssetsOpt.list []))).any
                (fun a => (w.disk (w.resolve a)).isSome)
              then assetHelperCode ++ b else b) := by
    cases hpk : w.pkgExec <;>
      simp [compile, hentry, hbundle, hpk, stage_guard, stageLoop_has]
  refine ⟨hmain, fun hall => ?_⟩
  have hany : ((normalizeAssets (o.assets.getD (AssetsOpt.list []))).any
      fun a => (w.disk (w.resolve a)).isSome) = false := by
    rw [List.any_eq_false]
    intro a ha
    simp [hall a ha]
  rw [hmain, hany]
  simp

/-- C7: missing asset paths are warned about and skipped without aborting —
the warnings are exactly one per missing entry in list order, the staged
store is the one obtained from the existing entries alone, and the run
still reaches packaging. -/
theorem c7_missing_assets_warn_and_skip (w : SysWorld) (o : CompileOptions)
    (fe : FsEntry) (hentry : w.disk (w.resolve o.entryPoint) = some fe)
    (b : String) (hbundle : w.bundleOutput = Except.ok b) :
    (compile w o).2.warnings
      = ((normalizeAssets (o.assets.getD (AssetsOpt.list []))).filter
            fun a => (w.disk (w.resolve a)).isNone).map
          (fun a => "⚠️ Warning: Asset not found: " ++ w.resolve a)
    ∧ (stageLoop w (normalizeAssets (o.assets.getD (AssetsOpt.list []))) [] false []).1
        = (stageLoop w ((normalizeAssets (o.assets.getD (AssetsOpt.list []))).filter
              fun a => (w.disk (w.resolve a)).isSome) [] false []).1
    ∧ (compile w o).2.packagerCalls = 1 := by
  refine ⟨?_, ?_, ?_⟩
  · cases hpk : w.pkgExec <;>
      simp [compile, hentry, hbundle, hpk, stage_guard, stageLoop_warns]
  · rw [stageLoop_fst, stageLoop_fst, stageStore_skip]
  · cases hpk : w.pkgExec <;> simp [compile, hentry, hbundle, hpk]

/-- C9: whenever at least one asset is actually copied, a README.md with
the fixed marker content is written into the staged assets directory before
the packager is invoked (overwriting any user asset staged under that
name), and on success the assets directory copied beside the binary also
contains it. -/
theorem c9_readme_always_staged (w : SysWorld) (o : CompileOptions)
    (fe : FsEntry) (hentry : w.disk (w.resolve o.entryPoint) = some fe)
    (b : String) (hbundle : w.bundleOutput = Except.ok b)
    (hany : ((normalizeAssets (o.assets.getD (AssetsOpt.list []))).any
        fun a => (w.disk (w.resolve a)).isSome) = true) :
    (compile w o).2.readmeWritten = true
    ∧ Store.read (compile w o).2.stagedAssets ["README.md"] = some readmeContent
    ∧ (compile w o).2.packagerCalls = 1
    ∧ (∀ u, w.pkgExec = Except.ok u →
        ∃ est, (compile w o).2.exeAssets = some est
          ∧ Store.read est ["README.md"] = some readmeContent) := by
  refine ⟨?_, ?_, ?_, ?_⟩
  · cases hpk : w.pkgExec <;>
      simp [compile, hentry, hbundle, hpk, stage_guard, stageLoop_has, hany]
  · cases hpk : w.pkgExec <;>
      simp [compile, hentry, hbundle, hpk, stage_guard, stageLoop_has, hany,
        Store.read_write_self]
  · cases hpk : w.pkgExec <;> simp [compile, hentry, hbundle, hpk]
  · intro u hu
    simp [compile, hentry, hbundle, hu, stage_guard, stageLoop_has, hany,
      Store.read_write_self]

/-- C3: staging one file asset and one directory asset (whose children are
files) puts the file into the flat assets store under its basename and the
directory's contents directly at top level — no nested subdirectory named
after the source directory ever appears (every staged path has one
component) — with the later writer winning any name collision. -/
theorem c3_flat_asset_staging (w : SysWorld) (f d c : String)
    (entries : List (String × String))
    (hf : w.disk (w.resolve f) = some (FsEntry.file c))
    (hd : w.disk (w.resolve d)
        = some (FsEntry.dir (entries.map fun e => (e.1, FsEntry.file e.2))))
    (hnd : (entries.map Prod.fst).Nodup) :
    (∀ e ∈ entries,
        Store.read (stageLoop w [f, d] [] false []).1 [e.1] = some e.2)
    ∧ (basename (w.resolve f) ∉ entries.map Prod.fst →
        Store.read (stageLoop w [f, d] [] false []).1 [basename (w.resolve f)] = some c)
    ∧ (∀ q ∈ (stageLoop w [f, d] [] false []).1, q.1.length = 1) := by
  have hst : (stageLoop w [f, d] [] false []).1
      = entries.foldl (fun acc e => Store.write acc ([] ++ [e.1]) e.2)
          (Store.write [] [basename (w.resolve f)] c) := by
    simp only [stageLoop, hf, hd, copyContents_files]
  refine ⟨?_, ?_, ?_⟩
  · intro e he
    rw [hst]
    have hmem : (e.1, e.2) ∈ entries := by
      rw [Prod.mk.eta]; exact he
    exact foldl_writes_read_mem entries [] _ e.1 e.2 hnd hmem
  · intro hb
    rw [hst]
    rw [foldl_writes_read_notin]
    · exact Store.read_write_self [] [basename (w.resolve f)] c
    · intro e he heq
      refine hb ?_
      have h1 : basename (w.resolve f) = e.1 := by simpa using heq
      rw [h1]
      exact List.mem_map_of_mem Prod.fst he
  · intro q hq
    rw [hst] at hq
    rcases foldl_writes_mem _ _ _ _ hq with ⟨e, _, hq1⟩ | hq1
    · rw [hq1]; simp
    · rcases Store.mem_write _ _ _ _ hq1 with h2 | h2
      · rw [h2]; simp
      · simp at h2

/-- C6 counterexample: with process.pkg unset, the snapshot path holding
the requested file, and the bundle-side directory holding different
content, the injected helper returns the bundle-side content — not the
snapshot content that the claimed unconditional four-candidate order
(formalized as readAssetSpec) would return. -/
theorem c6_lookup_order_counterexample :
    readAsset awCounter "config.json" = Except.ok "dev-content"
    ∧ readAssetSpec awCounter "config.json" = Except.ok "snapshot-content"
    ∧ ¬ readAsset awCounter "config.json" = readAssetSpec awCounter "config.json" := by
  refine ⟨rfl, rfl, ?_⟩
  intro h
  simp [readAsset, readAssetSpec, awCounter] at h

/-- C6 amended: the helper tries, in order, the assets directory beside the
executable, the assets directory under the working directory, then — only
when running under the packaging runtime (process.pkg set) — the fixed
snapshot path, then the assets directory beside the bundle source; it
returns the content of the first consulted candidate that exists, and when
none exists it fails with an error naming the requested filename. -/
theorem c6_lookup_order_amended (w : AssetWorld) (filename : String) :
    readAsset w filename
      = (match firstSome (consultedAssetDirs w filename) with
        | some c => Except.ok c
        | none => Except.error ("Asset file not found: " ++ filename)) := by
  cases h1 : w.execDirAssets filename <;>
    cases h2 : w.cwdAssets filename <;>
      cases hp : w.pkgMode <;>
        cases h3 : w.snapshotAssets filename <;>
          cases h4 : w.dirnameAssets filename <;>
            simp [readAsset, consultedAssetDirs, firstSome, h1, h2, hp, h3, h4]

/-- C10: passing assets as a single string s behaves identically to passing
the one-element list containing s, for every world and configuration — the
string form is normalized to a singleton list before any staging step. -/
theorem c10_assets_string_singleton_equiv (w : SysWorld) (o : CompileOptions)
    (s : String) :
    compile w { o with assets := some (AssetsOpt.str s) }
      = compile w { o with assets := some (AssetsOpt.list [s]) } := rfl

/-- C8: an empty argument list or one containing a help flag prints usage
and exits 0 without attempting a build; a non-empty list from which the
parser extracts no bare entry-point token yields a usage error and exit
code 1 without attempting a build; when compile runs, the exit code is 0
exactly on success and 1 on any resolution, bundling or packaging
failure. -/
theorem c8_cli_exit_codes (w : SysWorld) (args : List String) :
    ((args.isEmpty || args.contains "--help" || args.contains "-h") = true →
        mainRun w args = (MainOutcome.helpShown, none)
        ∧ MainOutcome.exitCode (mainRun w args).1 = 0)
    ∧ ((args.isEmpty || args.contains "--help" || args.contains "-h") = false →
        (parseLoop args (parseInit w)).entryPoint = "" →
        mainRun w args = (MainOutcome.usageError, none)
        ∧ MainOutcome.exitCode (mainRun w args).1 = 1)
    ∧ (∀ res, (mainRun w args).2 = some res →
        MainOutcome.exitCode (mainRun w args).1
          = (match res.1 with | Except.ok _ => 0 | Except.error _ => 1)) := by
  have hfin : ∀ res res', (mainFinish res).2 = some res' →
      MainOutcome.exitCode (mainFinish res).1
        = (match res'.1 with | Except.ok _ => 0 | Except.error _ => 1) := by
    intro res res' hr
    cases hc : res.1 <;> simp_all [mainFinish, MainOutcome.exitCode]
  refine ⟨?_, ?_, ?_⟩
  · intro h
    rw [mainRun, if_pos h]
    exact ⟨rfl, rfl⟩
  · intro h hpe
    have h' : ¬ (args.isEmpty || args.contains "--help" || args.contains "-h") = true := by
      rw [h]; exact Bool.false_ne_true
    rw [mainRun, if_neg h', if_pos hpe]
    exact ⟨rfl, rfl⟩
  · intro res hres
    rw [mainRun] at hres ⊢
    by_cases h : (args.isEmpty || args.contains "--help" || args.contains "-h") = true
    · rw [if_pos h] at hres
      exact absurd hres (by simp)
    · rw [if_neg h] at hres ⊢
      by_cases hpe : (parseLoop args (parseInit w)).entryPoint = ""
      · rw [if_pos hpe] at hres
        exact absurd hres (by simp)
      · rw [if_neg hpe] at hres ⊢
        by_cases hcn : ((parseLoop args (parseInit w)).assets.contains none) = true
        · rw [if_pos hcn] at hres
          exact absurd hres (by simp)
        · rw [if_neg hcn] at hres ⊢
          exact hfin _ _ hres

/-- Witness for C1 at the concrete empty-disk world. -/
theorem c1_missing_entry_fails_before_collaborators_witness :
    (compile wMiss oBase).1 = Except.error (CompileErr.fileNotFound "/w/app.ts")
    ∧ CompileErr.message (CompileErr.fileNotFound "/w/app.ts")
        = "File not found: /w/app.ts"
    ∧ (compile wMiss oBase).2.bundlerCalls = 0
    ∧ (compile wMiss oBase).2.packagerCalls = 0 := by
  have h := c1_missing_entry_fails_before_collaborators wMiss oBase rfl
  exact ⟨h.1, h.2.1, h.2.2.1, h.2.2.2⟩

/-- Witness for C2 at platform all with node 7 and at platform alpine with
node 16. -/
theorem c2_packager_target_identifiers_witness :
    ((compile wOk oAll).2.packagerCalls = 1
      ∧ (compile wOk oAll).2.packagerTargets
          = ["node7-win-x64", "node7-macos-x64", "node7-linux-x64"])
    ∧ (compile wOk oAlpine).2.packagerTargets = ["node16-alpine-x64"] := by
  have h1 := c2_packager_target_identifiers wOk oAll "7" "all" rfl rfl
    (FsEntry.file "code") rfl "BUNDLE;" rfl
  have h2 := c2_packager_target_identifiers wOk oAlpine "16" "alpine" rfl rfl
    (FsEntry.file "code") rfl "BUNDLE;" rfl
  refine ⟨⟨h1.1, ?_⟩, ?_⟩
  · rw [h1.2]; rfl
  · rw [h2.2]; rfl

/-- Witness for C3: staging the file config.json and the directory images
containing a.png yields a flat store holding both at top level. -/
theorem c3_flat_asset_staging_witness :
    Store.read (stageLoop wOk ["config.json", "images"] [] false []).1 ["a.png"]
      = some "png"
    ∧ Store.read (stageLoop wOk ["config.json", "images"] [] false []).1 ["config.json"]
      = some "cfg"
    ∧ (∀ q ∈ (stageLoop wOk ["config.json", "images"] [] false []).1, q.1.length = 1) := by
  have h := c3_flat_asset_staging wOk "config.json" "images" "cfg" [("a.png", "png")]
    rfl rfl (by decide)
  refine ⟨?_, ?_, h.2.2⟩
  · exact h.1 ("a.png", "png") (by decide)
  · exact h.2.1 (by decide)

/-- Witness for C4 at the concrete world whose pkg subprocess fails. -/
theorem c4_cleanup_and_rethrow_witness :
    (compile wPkgFail oBase).2.packagerCalls = 1
    ∧ (compile wPkgFail oBase).2.tempDirRemoved = true
    ∧ (compile wPkgFail oBase).1 = Except.error (CompileErr.pkgError "pkg exited 1") := by
  have h := c4_cleanup_and_rethrow wPkgFail oBase (FsEntry.file "code") rfl "BUNDLE;" rfl
  exact ⟨h.1, h.2.1, h.2.2.1 "pkg exited 1" rfl⟩

/-- Witness for C5: one existing asset prepends the helper; one missing
asset leaves the bundle unchanged. -/
theorem c5_helper_injected_iff_asset_copied_witness :
    (compile wOk oAssets).2.bundleContent = some (assetHelperCode ++ "BUNDLE;")
    ∧ (compile wOk oMissingAssets).2.bundleContent = some "BUNDLE;" := by
  have h1 := c5_helper_injected_iff_asset_copied wOk oAssets
    (FsEntry.file "code") rfl "BUNDLE;" rfl
  have h2 := c5_helper_injected_iff_asset_copied wOk oMissingAssets
    (FsEntry.file "code") rfl "BUNDLE;" rfl
  refine ⟨?_, ?_⟩
  · rw [h1.1]; rfl
  · refine h2.2 ?_
    intro a ha
    simp [oMissingAssets, normalizeAssets] at ha
    subst ha
    rfl

/-- Witness for C7: one missing asset warns by its resolved path and is
skipped, while the run still reaches packaging. -/
theorem c7_missing_assets_warn_and_skip_witness :
    (compile wOk oMixedAssets).2.warnings = ["⚠️ Warning: Asset not found: /w/nope.txt"]
    ∧ (stageLoop wOk ["nope.txt", "config.json"] [] false []).1
        = (stageLoop wOk ["config.json"] [] false []).1
    ∧ (compile wOk oMixedAssets).2.packagerCalls = 1 := by
  have h := c7_missing_assets_warn_and_skip wOk oMixedAssets
    (FsEntry.file "code") rfl "BUNDLE;" rfl
  refine ⟨?_, ?_, h.2.2⟩
  · rw [h.1]; rfl
  · exact h.2.1

/-- Witness for C8: help on an empty argument list, usage error on a bare
flag, success exit code on a plain entry-point run. -/
theorem c8_cli_exit_codes_witness :
    (mainRun wOk []).1 = MainOutcome.helpShown
    ∧ MainOutcome.exitCode (mainRun wOk []).1 = 0
    ∧ (mainRun wOk ["--platform"]).1 = MainOutcome.usageError
    ∧ MainOutcome.exitCode (mainRun wOk ["--platform"]).1 = 1
    ∧ MainOutcome.exitCode (mainRun wOk ["app.ts"]).1 = 0 := by
  have h1 := (c8_cli_exit_codes wOk []).1 rfl
  have h2 := (c8_cli_exit_codes wOk ["--platform"]).2.1 rfl rfl
  have h3 := (c8_cli_exit_codes wOk ["app.ts"]).2.2 (compile wOk cliOptsOk) rfl
  refine ⟨?_, h1.2, ?_, h2.2, ?_⟩
  · rw [h1.1]
  · rw [h2.1]
  · rw [h3]; rfl

/-- Witness for C9: with one existing asset, the staged store and the
store copied beside the binary both hold README.md with the marker
content. -/
theorem c9_readme_always_staged_witness :
    (compile wOk oAssets).2.readmeWritten = true
    ∧ Store.read (compile wOk oAssets).2.stagedAssets ["README.md"] = some readmeContent
    ∧ (compile wOk oAssets).2.packagerCalls = 1
    ∧ (∃ est, (compile wOk oAssets).2.exeAssets = some est
        ∧ Store.read est ["README.md"] = some readmeContent) := by
  have h := c9_readme_always_staged wOk oAssets (FsEntry.file "code") rfl "BUNDLE;" rfl rfl
  exact ⟨h.1, h.2.1, h.2.2.1, h.2.2.2 () rfl⟩

end TsCompilerBin
